import Mathlib

/-
Verification of the IPFS resolve handler: a resolver producing a range
fetcher over an external content store, with a resumable retry loop for
transient lock contention.  The Go source is shallowly embedded: external
command executions are parameterized by environments describing what the
external `ipfs` processes would do, and the per-Fetch goroutine feeding an
io.Pipe is embedded as a function computing the full sequence of external
invocations, the bytes delivered to the pipe, and how the pipe was closed.
-/

/-- Behaviour of one external `ipfs cat` invocation: either the process
streams its full requested range and exits cleanly, or its stdout ends
after `k` bytes of that range and the process fails, leaving `sb` as the
captured standard-error text. -/
inductive AttemptSpec where
  | ok : AttemptSpec
  | fail : Nat → String → AttemptSpec
deriving DecidableEq

/-- Environment of one Fetch call: the bytes of the object named by the
bound CID, and the behaviour of the i-th external `ipfs cat` invocation. -/
structure FetchEnv where
  obj : List Nat
  attempts : Nat → AttemptSpec

/-- Bytes that `ipfs cat --offset=curoff --length=size cid` streams on a
fully successful run: up to `size` bytes of the object starting at
`curoff` (fewer if the object ends first). -/
def catOutput (obj : List Nat) (curoff size : Int) : List Nat :=
  (obj.drop curoff.toNat).take size.toNat

/-- Bytes actually available on the i-th invocation's stdout, given its
behaviour: the full range, or a prefix of it when the process dies. -/
def attemptStdout (env : FetchEnv) (i : Nat) (curoff size : Int) : List Nat :=
  match env.attempts i with
  | .ok => catOutput env.obj curoff size
  | .fail k _ => (catOutput env.obj curoff size).take k

/-- Captured standard-error text of the i-th invocation. -/
def attemptStderr (env : FetchEnv) (i : Nat) : String :=
  match env.attempts i with
  | .ok => ""
  | .fail _ sb => sb

/-- Containment of `pat` as a contiguous sublist of `s`. -/
def listContains : List Char → List Char → Bool
  | s, pat =>
    if pat.isPrefixOf s then true
    else
      match s with
      | [] => false
      | _ :: t => listContains t pat

/-- strings.Contains: `sub` occurs as a contiguous substring of `s`. -/
def goContains (s sub : String) : Bool :=
  listContains s.toList sub.toList

/-- The lock-contention marker recognised in stderr by the retry loop. -/
def lockMsg : String := "someone else has the lock"

/-- maxretry from fetcher.Fetch. -/
def maxretry : Nat := 100

/-- Record of one external `ipfs cat` invocation made by the copy loop:
the `--offset` and `--length` command arguments, the number of bytes the
process made available on stdout, the bytes this attempt copied into the
outward pipe (`n` in the source is `sent.length`), and whether io.CopyN
returned an error for this attempt. -/
structure Invocation where
  offArg : Int
  lenArg : Int
  available : Nat
  sent : List Nat
  copyFailed : Bool
deriving DecidableEq

/-- How the outward pipe was closed: `clean` models `pw.Close()` (plain
EOF to the consumer), `errClose` models `pw.CloseWithError(err)` with the
failing attempt's copy error. -/
inductive FetchTerminal where
  | clean : FetchTerminal
  | errClose : FetchTerminal
deriving DecidableEq

/-- Everything the per-Fetch goroutine does, observably: the external
invocations it issues, the bytes it writes into the outward pipe, and how
it closes the pipe. -/
structure FetchResult where
  invocs : List Invocation
  delivered : List Nat
  terminal : FetchTerminal
deriving DecidableEq

/-- The observables of the i-th loop iteration at cursor `curoff`: the
command is invoked with `--offset=curoff --length=size` (the original
requested length); `io.CopyN(pw, stdout, size)` then copies
`sent = stdout.take size` bytes into the pipe and errors exactly when
fewer than `size` bytes were available on stdout. -/
def loopInv (env : FetchEnv) (size : Int) (i : Nat) (curoff : Int) : Invocation :=
  { offArg := curoff, lenArg := size,
    available := (attemptStdout env i curoff size).length,
    sent := (attemptStdout env i curoff size).take size.toNat,
    copyFailed := decide (((attemptStdout env i curoff size).length : Int) < size) }

/-- The retry loop of fetcher.Fetch (the goroutine body).  Each iteration
invokes `ipfs cat --offset=curoff --length=size`, copies via
`io.CopyN(pw, stdout, size)` — note: the threshold is the original full
`size`, exactly as in the source — and on a copy error retries while the
stderr holds the lock marker and `i < maxretry`, advancing `curoff` by the
`n` bytes this attempt delivered (`(loopInv env size i curoff).sent.length`). -/
def fetchLoop (env : FetchEnv) (size : Int) (i : Nat) (curoff : Int)
    (invocs : List Invocation) (acc : List Nat) : FetchResult :=
  if (loopInv env size i curoff).copyFailed then
    if h : i < maxretry ∧ goContains (attemptStderr env i) lockMsg = true then
      fetchLoop env size (i + 1) (curoff + (loopInv env size i curoff).sent.length)
        (invocs ++ [loopInv env size i curoff]) (acc ++ (loopInv env size i curoff).sent)
    else
      { invocs := invocs ++ [loopInv env size i curoff],
        delivered := acc ++ (loopInv env size i curoff).sent, terminal := .errClose }
  else
    { invocs := invocs ++ [loopInv env size i curoff],
      delivered := acc ++ (loopInv env size i curoff).sent, terminal := .clean }
termination_by maxretry - i
decreasing_by
  have := h.1
  omega

/-- The fetcher type: one CID bound to its known total size. -/
structure fetcher where
  cid : String
  size : Int
deriving DecidableEq

/-- The range-error message of fetcher.Fetch. -/
def rangeErrMsg (off blobSize : Int) : String :=
  "offset is larger than the size of the blob " ++ toString off ++
    "(offset) > " ++ toString blobSize ++ "(blob size)"

/-- fetcher.Fetch: rejects `off > f.size` synchronously, otherwise starts
the goroutine (here: runs the loop to completion) with `curoff = off`,
`i = 0`. -/
def fetcher.Fetch (f : fetcher) (env : FetchEnv) (off size : Int) :
    Except String FetchResult :=
  if off > f.size then
    .error (rangeErrMsg off f.size)
  else
    .ok (fetchLoop env size 0 off [] [])

/-- The external invocations a Fetch call issues (none when Fetch failed
the synchronous range check, since the goroutine is never started). -/
def fetchInvocations (f : fetcher) (env : FetchEnv) (off size : Int) :
    List Invocation :=
  match f.Fetch env off size with
  | .error _ => []
  | .ok r => r.invocs

/-- The Fetch result as an Option (none on the synchronous range error). -/
def fetchOut (f : fetcher) (env : FetchEnv) (off size : Int) :
    Option FetchResult :=
  match f.Fetch env off size with
  | .error _ => none
  | .ok r => some r

/-- The synchronous error of a Fetch call, when there is one. -/
def fetchErr (f : fetcher) (env : FetchEnv) (off size : Int) :
    Option String :=
  match f.Fetch env off size with
  | .error e => some e
  | .ok _ => none

/-- Object bytes used in the concrete scenarios. -/
def demoObj : List Nat := [10, 11, 12, 13, 14, 15, 16, 17]

/-- A fetcher bound to the demo object, with the size Resolve would report. -/
def demoFetcher : fetcher := { cid := "democid", size := 8 }

/-- Stderr text of a transient lock failure, containing the marker. -/
def lockStderr : String :=
  "Error: lock repo.lock: someone else has the lock"

/-- Scenario: the first external read dies with the lock marker after
streaming 2 bytes; every later attempt succeeds. -/
def retryEnv : FetchEnv :=
  { obj := demoObj, attempts := fun i => if i = 0 then .fail 2 lockStderr else .ok }

/-- Scenario: every external read succeeds. -/
def okEnv : FetchEnv :=
  { obj := demoObj, attempts := fun _ => .ok }


/-- Value of a decimal digit character, none for any other character. -/
def digitVal (c : Char) : Option Nat :=
  if '0' ≤ c ∧ c ≤ '9' then some (c.toNat - '0'.toNat) else none

/-- Accumulate decimal digits left to right; none on a non-digit. -/
def parseDigitsAux : List Char → Nat → Option Nat
  | [], acc => some acc
  | c :: cs, acc =>
    match digitVal c with
    | none => none
    | some d => parseDigitsAux cs (acc * 10 + d)

/-- Parse a non-empty all-digit string; none when empty or invalid. -/
def parseDigits : List Char → Option Nat
  | [] => none
  | cs => parseDigitsAux cs 0

/-- Smallest int64 value. -/
def int64Min : Int := -9223372036854775808

/-- Largest int64 value. -/
def int64Max : Int := 9223372036854775807

/-- strconv.ParseInt(s, 10, 64): optional sign, decimal digits, and an
int64 range check; none models a non-nil error. -/
def parseInt64 (s : String) : Option Int :=
  match s.toList with
  | [] => none
  | c :: cs =>
    let signed : Bool × List Char :=
      if c = '-' then (true, cs)
      else if c = '+' then (false, cs)
      else (false, c :: cs)
    match parseDigits signed.2 with
    | none => none
    | some n =>
      let v : Int := if signed.1 then -(n : Int) else (n : Int)
      if int64Min ≤ v ∧ v ≤ int64Max then some v else none

/-- strings.TrimSuffix: drop one final occurrence of `suf`, if present. -/
def goTrimSuffix (s suf : String) : String :=
  if suf.toList.isSuffixOf s.toList then
    String.mk (s.toList.take (s.toList.length - suf.toList.length))
  else s

/-- Environment of one Handle call: the result of the external CID lookup
(ipfs.GetCID on the descriptor) and, per CID, the combined-output result
of `ipfs files stat --format=<size> /ipfs/CID`. -/
structure ResolveEnv where
  getCID : Except String String
  sizeOutput : String → Except String String

/-- The error Handle reports when the size output fails to parse
(strconv returns a non-nil error). -/
def sizeParseErrMsg (out : String) : String :=
  "invalid size output: " ++ out

/-- ResolveHandler.Handle: extract the CID, query the object size, parse
it as a decimal int64 after trimming one trailing newline, and return a
fetcher bound to (cid, size) together with the size. -/
def Handle (env : ResolveEnv) : Except String (fetcher × Int) :=
  match env.getCID with
  | .error e => .error e
  | .ok cid =>
    match env.sizeOutput cid with
    | .error e => .error e
    | .ok sizeB =>
      match parseInt64 (goTrimSuffix sizeB "\n") with
      | none => .error (sizeParseErrMsg sizeB)
      | some size => .ok ({ cid := cid, size := size }, size)

/-- Environment of a Check call: the result of running
`ipfs files stat PATH` for a given path (none models a nil error). -/
structure CheckEnv where
  runStat : String → Option String

/-- fetcher.Check: run `ipfs files stat /ipfs/CID` and return its error
unchanged. -/
def fetcher.Check (f : fetcher) (env : CheckEnv) : Option String :=
  env.runStat ("/ipfs/" ++ f.cid)

/-- The SHA-256 word modulus, 2^32. -/
def w32 : Nat := 4294967296

/-- Rotation of a 32-bit word to the right by n bits, on Nat. -/
def rotr32 (x n : Nat) : Nat :=
  (x / 2 ^ n + x % 2 ^ n * 2 ^ (32 - n)) % w32

/-- Logical right shift of a 32-bit word. -/
def shr32 (x n : Nat) : Nat := x / 2 ^ n

/-- SHA-256 Ch function (the complement is xor with 2^32 - 1). -/
def sha2Ch (x y z : Nat) : Nat :=
  (x &&& y) ^^^ ((x ^^^ 4294967295) &&& z)

/-- SHA-256 Maj function. -/
def sha2Maj (x y z : Nat) : Nat :=
  (x &&& y) ^^^ (x &&& z) ^^^ (y &&& z)

/-- SHA-256 Sigma0. -/
def bigSigma0 (x : Nat) : Nat := rotr32 x 2 ^^^ rotr32 x 13 ^^^ rotr32 x 22

/-- SHA-256 Sigma1. -/
def bigSigma1 (x : Nat) : Nat := rotr32 x 6 ^^^ rotr32 x 11 ^^^ rotr32 x 25

/-- SHA-256 sigma0. -/
def smallSigma0 (x : Nat) : Nat := rotr32 x 7 ^^^ rotr32 x 18 ^^^ shr32 x 3

/-- SHA-256 sigma1. -/
def smallSigma1 (x : Nat) : Nat := rotr32 x 17 ^^^ rotr32 x 19 ^^^ shr32 x 10

/-- The 64 SHA-256 round constants. -/
def K256 : List Nat :=
  [1116352408, 1899447441, 3049323471, 3921009573,
   961987163, 1508970993, 2453635748, 2870763221,
   3624381080, 310598401, 607225278, 1426881987,
   1925078388, 2162078206, 2614888103, 3248222580,
   3835390401, 4022224774, 264347078, 604807628,
   770255983, 1249150122, 1555081692, 1996064986,
   2554220882, 2821834349, 2952996808, 3210313671,
   3336571891, 3584528711, 113926993, 338241895,
   666307205, 773529912, 1294757372, 1396182291,
   1695183700, 1986661051, 2177026350, 2456956037,
   2730485921, 2820302411, 3259730800, 3345764771,
   3516065817, 3600352804, 4094571909, 275423344,
   430227734, 506948616, 659060556, 883997877,
   958139571, 1322822218, 1537002063, 1747873779,
   1955562222, 2024104815, 2227730452, 2361852424,
   2428436474, 2756734187, 3204031479, 3329325298]

/-- The eight 32-bit working variables of SHA-256. -/
structure Sha256State where
  a : Nat
  b : Nat
  c : Nat
  d : Nat
  e : Nat
  f : Nat
  g : Nat
  h : Nat
deriving DecidableEq

/-- The SHA-256 initial hash value. -/
def initH : Sha256State :=
  { a := 1779033703, b := 3144134277,
    c := 1013904242, d := 2773480762,
    e := 1359893119, f := 2600822924,
    g := 528734635, h := 1541459225 }

/-- Big-endian 8-byte encoding of a (64-bit) length. -/
def be64 (n : Nat) : List Nat :=
  [n / 2 ^ 56 % 256, n / 2 ^ 48 % 256, n / 2 ^ 40 % 256, n / 2 ^ 32 % 256,
   n / 2 ^ 24 % 256, n / 2 ^ 16 % 256, n / 2 ^ 8 % 256, n % 256]

/-- SHA-256 padding: 0x80, zeros to 56 mod 64, then the bit length. -/
def padMessage (msg : List Nat) : List Nat :=
  msg ++ [128] ++ List.replicate ((64 - (msg.length + 9) % 64) % 64) 0 ++
    be64 (8 * msg.length)

/-- Split a byte list into 64-byte blocks. -/
def toBlocks : List Nat → List (List Nat)
  | [] => []
  | b :: l => ((b :: l).take 64) :: toBlocks ((b :: l).drop 64)
termination_by l => l.length
decreasing_by
  simp [List.length_drop]
  omega

/-- Big-endian 32-bit words from bytes. -/
def toWords : List Nat → List Nat
  | b0 :: b1 :: b2 :: b3 :: rest =>
    (((b0 * 256 + b1) * 256 + b2) * 256 + b3) :: toWords rest
  | _ => []

/-- One message-schedule extension step, on a newest-first word list. -/
def extendStep (ws : List Nat) : List Nat :=
  ((smallSigma1 (ws.getD 1 0) + ws.getD 6 0 + smallSigma0 (ws.getD 14 0) +
      ws.getD 15 0) % w32) :: ws

/-- The 64-entry message schedule of one block. -/
def schedule (w16 : List Nat) : List Nat :=
  ((List.range 48).foldl (fun ws _ => extendStep ws) w16.reverse).reverse

/-- One SHA-256 round, consuming a (constant, schedule word) pair. -/
def sha256Round (st : Sha256State) (kw : Nat × Nat) : Sha256State :=
  let t1 := (st.h + bigSigma1 st.e + sha2Ch st.e st.f st.g + kw.1 + kw.2) % w32
  let t2 := (bigSigma0 st.a + sha2Maj st.a st.b st.c) % w32
  { a := (t1 + t2) % w32, b := st.a, c := st.b, d := st.c,
    e := (st.d + t1) % w32, f := st.e, g := st.f, h := st.g }

/-- Compression of one 64-byte block into the running hash value. -/
def compress (hv : Sha256State) (block : List Nat) : Sha256State :=
  let st := ((K256.zip (schedule (toWords block))).foldl sha256Round hv)
  { a := (hv.a + st.a) % w32, b := (hv.b + st.b) % w32,
    c := (hv.c + st.c) % w32, d := (hv.d + st.d) % w32,
    e := (hv.e + st.e) % w32, f := (hv.f + st.f) % w32,
    g := (hv.g + st.g) % w32, h := (hv.h + st.h) % w32 }

/-- Big-endian bytes of one 32-bit word. -/
def wordBytes (x : Nat) : List Nat :=
  [x / 2 ^ 24 % 256, x / 2 ^ 16 % 256, x / 2 ^ 8 % 256, x % 256]

/-- The 32 digest bytes of a final hash state. -/
def digestBytes (hv : Sha256State) : List Nat :=
  wordBytes hv.a ++ wordBytes hv.b ++ wordBytes hv.c ++ wordBytes hv.d ++
    wordBytes hv.e ++ wordBytes hv.f ++ wordBytes hv.g ++ wordBytes hv.h

/-- crypto/sha256 Sum256 on a byte list. -/
def sha256 (msg : List Nat) : List Nat :=
  digestBytes ((toBlocks (padMessage msg)).foldl compress initH)

/-- Two lowercase hex digits of one byte (fmt %x on a byte). -/
def byteHex (b : Nat) : List Char :=
  [Nat.digitChar (b / 16 % 16), Nat.digitChar (b % 16)]

/-- fmt.Sprintf %x of a byte list: lowercase hex, two digits per byte. -/
def hexString (bs : List Nat) : String :=
  String.mk (bs.flatMap byteHex)

/-- UTF-8 bytes of a string (Go strings are byte strings; []byte(s)). -/
def stringBytes (s : String) : List Nat :=
  s.toUTF8.toList.map (fun b => b.toNat)

/-- fetcher.GenID: the lowercase-hex SHA-256 digest of
"CID-OFFSET-LENGTH" (fmt.Sprintf with %s and %d). -/
def fetcher.GenID (f : fetcher) (off size : Int) : String :=
  hexString (sha256 (stringBytes (f.cid ++ "-" ++ toString off ++ "-" ++ toString size)))

/-- The per-invocation shape the copy loop guarantees: the `--length`
argument is the original requested length, the bytes copied out are
`min size available`, and the attempt succeeds exactly when at least the
original `size` bytes were available. -/
def InvShape (size : Int) (inv : Invocation) : Prop :=
  inv.lenArg = size ∧
    inv.sent.length = min size.toNat inv.available ∧
    (inv.copyFailed = false ↔ size ≤ (inv.available : Int))

/-- Offsets of consecutive invocations chain: each starts at the base
cursor plus the bytes the previous invocations delivered. -/
inductive Chained : Int → List Invocation → Prop
  | nil (c : Int) : Chained c []
  | cons (c : Int) (inv : Invocation) (l : List Invocation) :
      inv.offArg = c → Chained (c + inv.sent.length) l → Chained c (inv :: l)

/-- The Fetch result of the retry scenario, written out: the failed first
attempt delivered 2 bytes, the resumed attempt delivered 4 more. -/
def retryResult : FetchResult :=
  { invocs :=
      [{ offArg := 0, lenArg := 4, available := 2, sent := [10, 11],
         copyFailed := true },
       { offArg := 2, lenArg := 4, available := 4, sent := [12, 13, 14, 15],
         copyFailed := false }],
    delivered := [10, 11, 12, 13, 14, 15],
    terminal := .clean }

/-- The Fetch result of the no-failure scenario, written out. -/
def okResult : FetchResult :=
  { invocs :=
      [{ offArg := 0, lenArg := 4, available := 4, sent := [10, 11, 12, 13],
         copyFailed := false }],
    delivered := [10, 11, 12, 13],
    terminal := .clean }

/-- A Resolve environment whose CID lookup and size query both succeed. -/
def resolveEnvOk : ResolveEnv :=
  { getCID := .ok "democid", sizeOutput := fun _ => .ok "8\n" }

/-- A Check environment whose existence query fails. -/
def checkEnvFail : CheckEnv :=
  { runStat := fun _ => some "stat fail" }


/-- The first (failed) invocation of the retry scenario. -/
def retryInv0 : Invocation :=
  { offArg := 0, lenArg := 4, available := 2, sent := [10, 11],
    copyFailed := true }

theorem fetchLoop_spec (env : FetchEnv) (size : Int) :
    ∀ (m i : Nat), maxretry - i = m →
    ∀ (curoff : Int) (invocs : List Invocation) (acc : List Nat),
    ∃ new inv,
      (fetchLoop env size i curoff invocs acc).invocs = invocs ++ new ∧
      (fetchLoop env size i curoff invocs acc).delivered =
        acc ++ (new.map Invocation.sent).flatten ∧
      Chained curoff new ∧
      (∀ v ∈ new, InvShape size v) ∧
      new.getLast? = some inv ∧
      ((fetchLoop env size i curoff invocs acc).terminal = .clean ↔
        inv.copyFailed = false) ∧
      new.length ≤ 1 + (maxretry - i) := by
  intro m
  induction m using Nat.strong_induction_on with
  | _ m ih =>
    intro i hm curoff invocs acc
    rw [fetchLoop.eq_def]
    split
    next hfail =>
      split
      next hretry =>
        obtain ⟨new', inv', h1, h2, h3, h4, h5, h6, h7⟩ :=
          ih (maxretry - (i + 1)) (by omega) (i + 1) rfl
            (curoff + (loopInv env size i curoff).sent.length)
            (invocs ++ [loopInv env size i curoff])
            (acc ++ (loopInv env size i curoff).sent)
        refine ⟨loopInv env size i curoff :: new', inv', ?_, ?_, ?_, ?_, ?_, h6, ?_⟩
        · rw [h1]; simp
        · rw [h2]; simp
        · exact Chained.cons _ _ _ rfl h3
        · intro v hv
          rcases List.mem_cons.mp hv with hv | hv
          · subst hv
            refine ⟨rfl, ?_, ?_⟩
            · simp [loopInv, List.length_take]
            · simp only [loopInv, decide_eq_false_iff_not, Int.not_lt]
          · exact h4 v hv
        · cases new' with
          | nil => simp at h5
          | cons a t => simpa using h5
        · have := h7
          simp only [List.length_cons]
          omega
      next hretry =>
        refine ⟨[loopInv env size i curoff], loopInv env size i curoff,
          rfl, ?_, Chained.cons _ _ _ rfl (Chained.nil _), ?_, rfl, ?_, by simp⟩
        · simp
        · intro v hv
          simp only [List.mem_singleton] at hv
          subst hv
          refine ⟨rfl, ?_, ?_⟩
          · simp [loopInv, List.length_take]
          · simp only [loopInv, decide_eq_false_iff_not, Int.not_lt]
        · simp only [FetchTerminal.errClose]
          constructor
          · intro hx
            exact absurd hx (by simp)
          · intro hx
            rw [hfail] at hx
            exact absurd hx (by simp)
    next hfail =>
      refine ⟨[loopInv env size i curoff], loopInv env size i curoff,
        rfl, ?_, Chained.cons _ _ _ rfl (Chained.nil _), ?_, rfl, ?_, by simp⟩
      · simp
      · intro v hv
        simp only [List.mem_singleton] at hv
        subst hv
        refine ⟨rfl, ?_, ?_⟩
        · simp [loopInv, List.length_take]
        · simp only [loopInv, decide_eq_false_iff_not, Int.not_lt]
      · simp only [Bool.not_eq_true] at hfail
        simp [hfail]

theorem chained_get {c : Int} {l : List Invocation} (hch : Chained c l) :
    ∀ (j : Nat) (hj : j < l.length),
      (l.get ⟨j, hj⟩).offArg =
        c + ((l.take j).map fun v => (v.sent.length : Int)).sum := by
  induction hch with
  | nil _ =>
    intro j hj
    simp at hj
  | cons c inv l hoff htail ih =>
    intro j hj
    cases j with
    | zero => simpa using hoff
    | succ j =>
      have hj' : j < l.length := by simpa using hj
      have hih := ih j hj'
      simp only [List.get_cons_succ, List.take_succ_cons, List.map_cons,
        List.sum_cons] at *
      rw [hih]
      ring

theorem fetch_ok_spec (f : fetcher) (env : FetchEnv) (off size : Int)
    (r : FetchResult) (h : fetchOut f env off size = some r) :
    Chained off r.invocs ∧
    (∀ v ∈ r.invocs, InvShape size v) ∧
    r.delivered = (r.invocs.map Invocation.sent).flatten ∧
    (∃ inv, r.invocs.getLast? = some inv ∧
      (r.terminal = .clean ↔ inv.copyFailed = false)) ∧
    r.invocs.length ≤ 1 + maxretry := by
  unfold fetchOut fetcher.Fetch at h
  by_cases hoff : off > f.size
  · simp [hoff] at h
  · simp only [hoff, if_false] at h
    obtain ⟨new, inv, h1, h2, h3, h4, h5, h6, h7⟩ :=
      fetchLoop_spec env size (maxretry - 0) 0 rfl off [] []
    have hr : fetchLoop env size 0 off [] [] = r := by
      simpa using h
    rw [hr] at h1 h2 h6
    simp only [List.nil_append] at h1 h2
    rw [h1]
    refine ⟨h3, h4, by simpa using h2, ⟨inv, h5, h6⟩, ?_⟩
    simpa using h7

theorem retryRun_eval : fetchOut demoFetcher retryEnv 0 4 = some retryResult := by
  unfold fetchOut fetcher.Fetch
  unfold fetchLoop
  unfold fetchLoop
  decide

theorem okRun_eval : fetchOut demoFetcher okEnv 0 4 = some okResult := by
  unfold fetchOut fetcher.Fetch
  unfold fetchLoop
  decide

/-- C1: the claim that a Fetch stream read end-to-end yields exactly the
bytes at `[offset, offset + length)` of the object regardless of how many
transient-lock retries occurred fails on the code: in the retry scenario
(offset 0, length 4, one lock retry after 2 bytes) the stream closes
cleanly after delivering 6 bytes, `[10..15]`, instead of the requested 4
bytes `[10..13]`, because the resumed attempt copies the full original
length again (`io.CopyN(pw, stdout, size)` instead of the remaining
length). -/
theorem C1_overdelivery_on_retry :
    (0 : Int) ≤ demoFetcher.size ∧
    fetchOut demoFetcher retryEnv 0 4 = some retryResult ∧
    retryResult.terminal = .clean ∧
    ¬ retryResult.delivered =
        (retryEnv.obj.drop (0 : Int).toNat).take (4 : Int).toNat := by
  refine ⟨by decide, retryRun_eval, rfl, by decide⟩

/-- C2: the claim that each attempt's copy is counted toward the
remaining length `length - (cursor - offset)` and that an attempt is a
terminal success exactly when that many bytes were copied fails on the
code: the resumed attempt of the retry scenario starts at cursor 2 with 2
bytes already delivered, yet copies 4 bytes (the original full length),
not the remaining `4 - (2 - 0) = 2`. -/
theorem C2_full_length_threshold_on_resume :
    fetchOut demoFetcher retryEnv 0 4 = some retryResult ∧
    (retryResult.invocs.map fun v => ((v.offArg, (v.sent.length : Int)))) =
      [(0, 2), (2, 4)] ∧
    ¬ ((4 : Int) = 4 - (2 - 0)) := by
  refine ⟨retryRun_eval, by decide, by decide⟩

/-- C3: when an attempt fails with the lock marker below the retry
ceiling, the cursor advances by exactly the bytes that attempt delivered,
so the `--offset` argument of every external read invocation equals the
original offset plus the cumulative bytes delivered to the outward stream
by all prior attempts. -/
theorem C3_cursor_resumes_at_delivered_bytes (f : fetcher) (env : FetchEnv)
    (off size : Int) (r : FetchResult) (h : fetchOut f env off size = some r)
    (j : Nat) (hj : j < r.invocs.length) :
    (r.invocs.get ⟨j, hj⟩).offArg =
      off + ((r.invocs.take j).map fun v => (v.sent.length : Int)).sum :=
  chained_get (fetch_ok_spec f env off size r h).1 j hj

/-- C3 witness: in the retry scenario the second invocation's offset is
the original offset 0 plus the 2 bytes the first attempt delivered. -/
theorem C3_witness :
    fetchOut demoFetcher retryEnv 0 4 = some retryResult ∧
    (1 < retryResult.invocs.length) ∧
    (retryResult.invocs.get ⟨1, by decide⟩).offArg =
      0 + ((retryResult.invocs.take 1).map fun v => (v.sent.length : Int)).sum :=
  ⟨retryRun_eval, by decide,
    C3_cursor_resumes_at_delivered_bytes demoFetcher retryEnv 0 4 retryResult
      retryRun_eval 1 (by decide)⟩

/-- C4: a Fetch transfer that did not complete its final copy closes the
outward stream through `pw.CloseWithError` (never a bare `pw.Close`), and
a Fetch call makes at most `maxretry + 1 = 101` external read invocations,
i.e. at most 100 retries beyond the first. -/
theorem C4_error_close_and_retry_bound (f : fetcher) (env : FetchEnv)
    (off size : Int) (r : FetchResult) (h : fetchOut f env off size = some r) :
    r.invocs.length ≤ maxretry + 1 ∧
    ∃ inv, r.invocs.getLast? = some inv ∧
      (r.terminal = .clean ↔ inv.copyFailed = false) := by
  obtain ⟨-, -, -, hlast, hlen⟩ := fetch_ok_spec f env off size r h
  exact ⟨by omega, hlast⟩

/-- C4 witness at the no-failure scenario. -/
theorem C4_witness :
    fetchOut demoFetcher okEnv 0 4 = some okResult ∧
    (okResult.invocs.length ≤ maxretry + 1 ∧
      ∃ inv, okResult.invocs.getLast? = some inv ∧
        (okResult.terminal = .clean ↔ inv.copyFailed = false)) :=
  ⟨okRun_eval,
    C4_error_close_and_retry_bound demoFetcher okEnv 0 4 okResult okRun_eval⟩

/-- C5: when the requested offset exceeds the bound size, Fetch reports
the range error synchronously, produces no stream, and issues no external
invocation. -/
theorem C5_range_error_no_invocation (f : fetcher) (env : FetchEnv)
    (off size : Int) (h : off > f.size) :
    fetchErr f env off size = some (rangeErrMsg off f.size) ∧
    fetchOut f env off size = none ∧
    fetchInvocations f env off size = [] := by
  unfold fetchErr fetchOut fetchInvocations fetcher.Fetch
  simp [h]

/-- C5 witness: offset 9 against size 8. -/
theorem C5_witness :
    (9 : Int) > demoFetcher.size ∧
    (fetchErr demoFetcher okEnv 9 4 = some (rangeErrMsg 9 demoFetcher.size) ∧
      fetchOut demoFetcher okEnv 9 4 = none ∧
      fetchInvocations demoFetcher okEnv 9 4 = []) :=
  ⟨by decide, C5_range_error_no_invocation demoFetcher okEnv 9 4 (by decide)⟩

/-- C6 counterexample: the clause that only the copy-completion threshold
uses the remaining length is false on the code — in the retry scenario the
resumed attempt's completion threshold is the original length 4, not the
remaining `4 - 2 = 2`, so it copies 4 bytes. -/
theorem C6_counterexample :
    ((fetchInvocations demoFetcher retryEnv 0 4).map fun v => v.sent) =
      [[10, 11], [12, 13, 14, 15]] ∧
    ¬ ((([12, 13, 14, 15] : List Nat).length : Int) =
        4 - (([10, 11] : List Nat).length : Int)) := by
  constructor
  · unfold fetchInvocations fetcher.Fetch
    unfold fetchLoop
    unfold fetchLoop
    decide
  · decide

/-- C6 (amended): every external read invocation of a Fetch call passes
the originally requested total length as the `--length` argument, never
the remaining length; the copy-completion threshold likewise uses the
originally requested total length — each attempt copies
`min size available` bytes and succeeds exactly when at least the original
`size` bytes were available on that attempt's stdout. -/
theorem C6_original_length_argument (f : fetcher) (env : FetchEnv)
    (off size : Int) (r : FetchResult) (h : fetchOut f env off size = some r) :
    ∀ v ∈ r.invocs, InvShape size v :=
  (fetch_ok_spec f env off size r h).2.1

/-- C6 witness: the failed first invocation of the retry scenario has the
original length argument 4 and copied min 4 2 = 2 bytes. -/
theorem C6_witness :
    fetchOut demoFetcher retryEnv 0 4 = some retryResult ∧
    InvShape 4 retryInv0 :=
  ⟨retryRun_eval,
    C6_original_length_argument demoFetcher retryEnv 0 4 retryResult retryRun_eval
      retryInv0 (by decide)⟩

/-- C10: the `off > f.size` guard is the only input validation of Fetch —
a synchronous error occurs exactly when `off > f.size`, and every other
call (offset equal to the size, negative offsets, any length, in or out of
range) proceeds to at least one external read invocation. -/
theorem C10_guard_is_only_validation (f : fetcher) (env : FetchEnv)
    (off size : Int) :
    ((∃ e, fetchErr f env off size = some e) ↔ off > f.size) ∧
    (off ≤ f.size → ∃ r, fetchOut f env off size = some r ∧ r.invocs ≠ []) := by
  constructor
  · constructor
    · intro ⟨e, he⟩
      by_contra hoff
      unfold fetchErr fetcher.Fetch at he
      simp [hoff] at he
    · intro hoff
      refine ⟨rangeErrMsg off f.size, ?_⟩
      unfold fetchErr fetcher.Fetch
      simp [hoff]
  · intro hoff
    refine ⟨fetchLoop env size 0 off [] [], ?_, ?_⟩
    · unfold fetchOut fetcher.Fetch
      simp [not_lt.mpr hoff]
    · obtain ⟨new, inv, h1, h2, h3, h4, h5, h6, h7⟩ :=
        fetchLoop_spec env size (maxretry - 0) 0 rfl off [] []
      rw [h1]
      simp only [List.nil_append]
      intro hnil
      rw [hnil] at h5
      simp at h5

/-- C10 witness: offset = size (8), negative offset, oversize length and
zero length are all accepted; offset 9 is rejected. -/
theorem C10_witness :
    ((∃ e, fetchErr demoFetcher okEnv 9 4 = some e) ↔ (9 : Int) > demoFetcher.size) ∧
    ((-3 : Int) ≤ demoFetcher.size →
      ∃ r, fetchOut demoFetcher okEnv (-3) 99 = some r ∧ r.invocs ≠ []) :=
  ⟨(C10_guard_is_only_validation demoFetcher okEnv 9 4).1,
    (C10_guard_is_only_validation demoFetcher okEnv (-3) 99).2⟩

/-- C7: Handle fails with the size query's error when the external size
query fails, fails when its output does not parse as a decimal integer,
and on success returns a fetcher bound to the extracted CID and the parsed
size together with that same size.  The embedding is a pure function of
the two external query results: there are no other side effects and no
caching. -/
theorem C7_handle_size_query (env : ResolveEnv) (cid : String)
    (hc : env.getCID = .ok cid) :
    (∀ e, env.sizeOutput cid = .error e → Handle env = .error e) ∧
    (∀ out, env.sizeOutput cid = .ok out →
      (parseInt64 (goTrimSuffix out "\n") = none →
        Handle env = .error (sizeParseErrMsg out)) ∧
      (∀ v, parseInt64 (goTrimSuffix out "\n") = some v →
        Handle env = .ok ({ cid := cid, size := v }, v))) := by
  unfold Handle
  rw [hc]
  refine ⟨?_, ?_⟩
  · intro e he
    simp [he]
  · intro out hout
    refine ⟨?_, ?_⟩
    · intro hp
      simp [hout, hp]
    · intro v hp
      simp [hout, hp]

/-- C7 witness: a size query answering "8 newline" yields the fetcher
bound to ("democid", 8) and the size 8. -/
theorem C7_witness :
    resolveEnvOk.getCID = .ok "democid" ∧
    resolveEnvOk.sizeOutput "democid" = .ok "8\n" ∧
    parseInt64 (goTrimSuffix "8\n" "\n") = some 8 ∧
    Handle resolveEnvOk = .ok ({ cid := "democid", size := 8 }, 8) :=
  ⟨rfl, rfl, by decide,
    ((C7_handle_size_query resolveEnvOk "democid" rfl).2 "8\n" rfl).2 8 (by decide)⟩

theorem digestBytes_length (hv : Sha256State) : (digestBytes hv).length = 32 := by
  simp [digestBytes, wordBytes]

theorem sha256_length (msg : List Nat) : (sha256 msg).length = 32 := by
  unfold sha256
  exact digestBytes_length _

theorem hexString_length (bs : List Nat) : (hexString bs).length = 2 * bs.length := by
  induction bs with
  | nil => rfl
  | cons b t ih =>
    simp only [hexString, String.length, String.mk] at *
    simp only [List.flatMap_cons, byteHex, List.length_append, List.length_cons,
      List.length_nil] at *
    omega

/-- C8: GenID is a pure function of (CID, offset, length): any two
fetchers with the same bound CID (whatever their sizes) produce the
identical digest string for equal offsets and lengths, and the output is
always a fixed-length string of 64 hex characters.  The embedding is a
pure function: no external calls and no side effects. -/
theorem C8_genid_pure_fixed_length (f g : fetcher) (off size off2 size2 : Int)
    (hc : f.cid = g.cid) (ho : off = off2) (hs : size = size2) :
    f.GenID off size = g.GenID off2 size2 ∧ (f.GenID off size).length = 64 := by
  constructor
  · unfold fetcher.GenID
    rw [hc, ho, hs]
  · unfold fetcher.GenID
    rw [hexString_length, sha256_length]

/-- C8 witness: two fetchers sharing the CID but with different bound
sizes derive the identical 64-character identifier for (0, 500). -/
theorem C8_witness :
    demoFetcher.cid = (fetcher.mk "democid" 1000).cid ∧
    (demoFetcher.GenID 0 500 = (fetcher.mk "democid" 1000).GenID 0 500 ∧
      (demoFetcher.GenID 0 500).length = 64) :=
  ⟨rfl, C8_genid_pure_fixed_length demoFetcher (fetcher.mk "democid" 1000)
    0 500 0 500 rfl rfl rfl⟩

/-- C9: Check returns no error exactly when the external existence query
for `/ipfs/CID` succeeds, and on failure returns the external command's
error verbatim, unmodified. -/
theorem C9_check_verbatim (f : fetcher) (env : CheckEnv) :
    (f.Check env = none ↔ env.runStat ("/ipfs/" ++ f.cid) = none) ∧
    (∀ e, env.runStat ("/ipfs/" ++ f.cid) = some e → f.Check env = some e) := by
  unfold fetcher.Check
  exact ⟨Iff.rfl, fun e he => he⟩

/-- C9 witness: a failing stat query's error is returned verbatim. -/
theorem C9_witness :
    checkEnvFail.runStat ("/ipfs/" ++ demoFetcher.cid) = some "stat fail" ∧
    fetcher.Check demoFetcher checkEnvFail = some "stat fail" :=
  ⟨rfl, (C9_check_verbatim demoFetcher checkEnvFail).2 "stat fail" rfl⟩
